import Mathlib

/- Shallow embedding of the order / inventory / payment core of the
   farmart marketplace backend (src/api/models.py, src/api/serializers.py,
   src/api/views.py, src/api/mpesa_api.py).  Python str values are modelled
   as List Char, Decimal(10,2) prices as exact integer cents, and database
   tables as lists of rows.  All operations are sequential, mirroring the
   serial execution of one request at a time. -/

namespace Farmart

/-- Roles of User.user_type (models.py, User.Types). -/
inductive UserType
| BUYER
| FARMER
deriving DecidableEq

/-- Relevant fields of the custom User model (models.py). -/
structure User where
  id : Nat
  user_type : UserType
deriving DecidableEq

/-- Livestock listing (models.py, Animal).  The Decimal(10,2) price is held
    exactly as a number of cents. -/
structure Animal where
  id : Nat
  farmer : Nat
  name : List Char
  priceCents : Nat
  is_sold : Bool
  quantity : Nat
deriving DecidableEq

/-- Order status values (models.py, Order.OrderStatus). -/
inductive OrderStatus
| PENDING
| CONFIRMED
| REJECTED
| PAID
| DELIVERED
deriving DecidableEq

/-- Customer order row (models.py, Order). -/
structure Order where
  id : Nat
  buyer : Nat
  status : OrderStatus
deriving DecidableEq

/-- Line item row (models.py, OrderItem); order and animal are foreign keys. -/
structure OrderItem where
  order : Nat
  animal : Nat
  quantity : Nat
deriving DecidableEq

/-- Database state touched by the order and payment flows. -/
structure State where
  animals : List Animal
  orders : List Order
  orderItems : List OrderItem
  nextOrderId : Nat
deriving DecidableEq

/-- Cart line of an order creation request: one {animal, quantity} pair of
    OrderItemWriteSerializer (serializers.py lines 75-78). -/
structure ItemData where
  animal : Nat
  quantity : Nat
deriving DecidableEq

/-- Errors surfaced by the order creation and payment flows.  Each
    constructor records exactly the data its Python message interpolates. -/
inductive ApiError
  /-- DRF: the required items field is missing from the request body. -/
| fieldRequired
  /-- DRF primary key validation: a cart line names no existing Animal. -/
| invalidPk (aid : Nat)
  /-- serializers.py line 92: "X is out of stock." (name only). -/
| outOfStock (name : List Char)
  /-- serializers.py lines 94-97: "Not enough stock for X. You requested r,
      but only q are available." -/
| notEnoughStock (name : List Char) (requested : Nat) (available : Nat)
  /-- unique_together (order, animal) of models.py line 96 violated. -/
| uniqueTogether
  /-- views.py line 110: "Not enough stock for X." raised inside
      perform_create (name only). -/
| notEnoughStockView (name : List Char)
  /-- views.py line 98: "Only Buyers can create orders." -/
| permissionDenied
  /-- views.py line 117: "Could not create order due to a stock issue or
      server error." -/
| genericOrderError
deriving DecidableEq

/-- Animal.objects.get(id=aid): first row whose id matches. -/
def State.findAnimal (st : State) (aid : Nat) : Option Animal :=
  st.animals.find? (fun a => a.id == aid)

/-- Order.objects.get(id=oid): first row whose id matches. -/
def State.findOrder (st : State) (oid : Nat) : Option Order :=
  st.orders.find? (fun o => o.id == oid)

/-- order.items.all(): the line items referencing order oid. -/
def State.orderLines (st : State) (oid : Nat) : List OrderItem :=
  st.orderItems.filter (fun oi => oi.order == oid)

/-- animal_to_update.save(): write back an Animal row by its id. -/
def State.saveAnimal (st : State) (a : Animal) : State :=
  { st with animals := st.animals.map (fun x => if x.id == a.id then a else x) }

/-- order.save() after a status assignment: write back the status of the
    order row with the given id. -/
def State.setOrderStatus (st : State) (oid : Nat) (s : OrderStatus) : State :=
  { st with orders :=
      st.orders.map (fun o => if o.id == oid then { o with status := s } else o) }

/-- DRF validation of the request body before perform_create runs: the
    items field is required, and every cart line must reference an existing
    Animal (PrimaryKeyRelatedField).  An empty items list is accepted
    (ListSerializer allow_empty defaults to true). -/
def validateItems (st : State) (items : Option (List ItemData)) :
    Except ApiError (List ItemData) :=
  match items with
  | none => .error .fieldRequired
  | some l =>
    match l.find? (fun it => (st.findAnimal it.animal).isNone) with
    | some it => .error (.invalidPk it.animal)
    | none => .ok l

/-- Loop body of OrderWriteSerializer.create (serializers.py lines 88-98):
    per cart line, reject a sold out or depleted listing, reject a request
    above the available quantity, then insert the OrderItem row (the
    unique_together constraint of models.py line 96 rejects a duplicate
    (order, animal) pair).  No quantity is changed here. -/
def OrderWriteSerializer.createLoop (oid : Nat) :
    State → List ItemData → Except ApiError State
  | st, [] => .ok st
  | st, it :: rest =>
    match st.findAnimal it.animal with
    | none => .error (.invalidPk it.animal)
    | some a =>
      if a.is_sold ∨ a.quantity = 0 then
        .error (.outOfStock a.name)
      else if it.quantity > a.quantity then
        .error (.notEnoughStock a.name it.quantity a.quantity)
      else if ∃ oi ∈ st.orderItems, oi.order = oid ∧ oi.animal = it.animal then
        .error .uniqueTogether
      else
        OrderWriteSerializer.createLoop oid
          { st with orderItems := st.orderItems ++ [⟨oid, it.animal, it.quantity⟩] }
          rest

/-- OrderWriteSerializer.create (serializers.py lines 85-99): insert the
    Order row (status defaults to PENDING), then insert its line items,
    validating stock per line.  Returns the new order id. -/
def OrderWriteSerializer.create (st : State) (buyerId : Nat)
    (items : List ItemData) : Except ApiError (State × Nat) :=
  (OrderWriteSerializer.createLoop st.nextOrderId
    { st with orders := st.orders ++ [⟨st.nextOrderId, buyerId, .PENDING⟩],
              nextOrderId := st.nextOrderId + 1 } items).map
    (fun st2 => (st2, st.nextOrderId))

/-- Decrement step shared verbatim by views.py lines 111-113 and lines
    203-205: subtract the bought quantity and set is_sold when the
    quantity reaches zero. -/
def decrementAnimal (a : Animal) (n : Nat) : Animal :=
  let a1 : Animal := { a with quantity := a.quantity - n }
  if a1.quantity = 0 then { a1 with is_sold := true } else a1

/-- Stock loop of OrderViewSet.perform_create (views.py lines 105-114):
    per cart line, re-read the Animal row, reject if stock is below the
    request, otherwise decrement and set is_sold when the quantity
    reaches zero. -/
def OrderViewSet.performCreateLoop :
    State → List ItemData → Except ApiError State
  | st, [] => .ok st
  | st, it :: rest =>
    match st.findAnimal it.animal with
    | none => .error (.invalidPk it.animal)
    | some a =>
      if a.quantity < it.quantity then
        .error (.notEnoughStockView a.name)
      else
        OrderViewSet.performCreateLoop (st.saveAnimal (decrementAnimal a it.quantity)) rest

/-- Order creation request (CreateModelMixin plus OrderViewSet.perform_create,
    views.py lines 95-117): DRF validation, the buyer-role gate, then one
    atomic transaction running serializer.save followed by the stock loop.
    Any exception inside the transaction rolls the whole state back and is
    replaced by the generic could-not-create-order ValidationError. -/
def OrderViewSet.create (st : State) (user : User)
    (items : Option (List ItemData)) : State × Except ApiError Nat :=
  match validateItems st items with
  | .error e => (st, .error e)
  | .ok itemsData =>
    if user.user_type ≠ UserType.BUYER then
      (st, .error .permissionDenied)
    else
      match (do
          let r ← OrderWriteSerializer.create st user.id itemsData
          let st2 ← OrderViewSet.performCreateLoop r.1 itemsData
          pure (st2, r.2) : Except ApiError (State × Nat)) with
      | .ok r => (r.1, .ok r.2)
      | .error _ => (st, .error .genericOrderError)

/-- Response body and HTTP status of the callback view. -/
structure CallbackResponse where
  statusMsg : List Char
  httpStatus : Nat
deriving DecidableEq

/-- Response({'status': 'ok'}), HTTP 200. -/
def okResponse : CallbackResponse := ⟨"ok".toList, 200⟩

/-- Stock loop of MpesaCallbackView.post (views.py lines 198-208): per line
    item of the paid order, decrement the listing when enough stock remains
    (setting is_sold at zero), otherwise only log a stock discrepancy.  The
    animal row always exists: OrderItem.animal is a PROTECT foreign key. -/
def MpesaCallbackView.stockLoop : State → List OrderItem → State
  | st, [] => st
  | st, oi :: rest =>
    match st.findAnimal oi.animal with
    | none => MpesaCallbackView.stockLoop st rest
    | some a =>
      if a.quantity ≥ oi.quantity then
        MpesaCallbackView.stockLoop (st.saveAnimal (decrementAnimal a oi.quantity)) rest
      else
        MpesaCallbackView.stockLoop st rest

/-- MpesaCallbackView.post (views.py lines 187-217): look the order up by
    the posted order_id; when its status is exactly CONFIRMED, set it to
    PAID and run the stock loop over its line items; any other status, a
    missing order_id and an unknown order are logged and ignored.  The
    response is {'status': 'ok'} with HTTP 200 on every path. -/
def MpesaCallbackView.post (st : State) (order_id : Option Nat) :
    State × CallbackResponse :=
  (match order_id with
   | none => st
   | some oid =>
     match st.findOrder oid with
     | none => st
     | some o =>
       if o.status = OrderStatus.CONFIRMED then
         let st1 := st.setOrderStatus oid OrderStatus.PAID
         MpesaCallbackView.stockLoop st1 (st1.orderLines oid)
       else st,
   okResponse)

/-- Seller edit of a listing through AnimalSerializer (serializers.py lines
    24-39) with quantity in the payload: the default ModelSerializer update
    assigns the writable quantity field, while is_sold is in
    read_only_fields and is left untouched. -/
def AnimalSerializer.updateQuantity (st : State) (aid : Nat) (newQty : Nat) :
    State :=
  { st with animals :=
      st.animals.map (fun x => if x.id == aid then { x with quantity := newQty } else x) }

/-- OrderItem.clean (models.py lines 98-100) raises exactly when the order
    buyer equals the animal farmer.  Django invokes clean only from
    full_clean, which neither OrderItem.objects.create nor DRF calls. -/
def OrderItem.cleanRejects (buyerId : Nat) (a : Animal) : Prop :=
  buyerId = a.farmer

/-- item.animal.price of a line item, in cents (0 is unreachable: the
    foreign key always resolves). -/
def State.lineCents (st : State) (oi : OrderItem) : Nat :=
  match st.findAnimal oi.animal with
  | some a => a.priceCents
  | none => 0

/-- Exact Decimal value of sum(item.animal.price * item.quantity)
    (views.py line 146), as a rational number of currency units. -/
def MakePaymentView.amountRat (st : State) (oid : Nat) : ℚ :=
  ((st.orderLines oid).map
    (fun oi => ((st.lineCents oi : ℚ) / 100) * (oi.quantity : ℚ))).sum

/-- int(amount) (views.py line 157): truncation of the nonnegative Decimal
    total toward zero, the amount handed to initiate_stk_push. -/
def MakePaymentView.amount (st : State) (oid : Nat) : Nat :=
  ⌊MakePaymentView.amountRat st oid⌋₊

/-- Sum over the order lines of price-in-cents times quantity, an exact
    integer restatement of the order total used to compare against the
    truncated amount. -/
def State.totalCents (st : State) (oid : Nat) : Nat :=
  ((st.orderLines oid).map (fun oi => st.lineCents oi * oi.quantity)).sum

/-- item_names joined with ", " (views.py lines 148-149). -/
def MakePaymentView.joinedDesc (st : State) (oid : Nat) : List Char :=
  List.intercalate (", ".toList)
    ((st.orderLines oid).map
      (fun oi => match st.findAnimal oi.animal with
                 | some a => a.name
                 | none => []))

/-- Truncation of views.py lines 150-151: when the joined description is
    longer than 90 characters, keep its first 90 characters and append an
    ellipsis marker. -/
def MakePaymentView.truncateDesc (d : List Char) : List Char :=
  if d.length > 90 then d.take 90 ++ "...".toList else d

/-- transaction_desc handed to initiate_stk_push (views.py lines 148-159). -/
def MakePaymentView.transactionDesc (st : State) (oid : Nat) : List Char :=
  MakePaymentView.truncateDesc (MakePaymentView.joinedDesc st oid)

/-- Listing flag invariant of the spec: is_sold holds exactly on depleted
    listings, for every Animal row of the state. -/
def SoldOutInv (st : State) : Prop :=
  ∀ a ∈ st.animals, a.is_sold = decide (a.quantity = 0)

/- Concrete scenario states used by the counterexamples and witnesses. -/

/-- Buyer account used in the scenarios. -/
def buyer20 : User := ⟨20, .BUYER⟩

/-- Listing with two units of stock, owned by farmer 10. -/
def bessie : Animal := ⟨1, 10, "Bessie".toList, 100000, false, 2⟩

/-- Fresh database holding only the listing bessie. -/
def stC1 : State := ⟨[bessie], [], [], 1⟩

/-- State after buyer 20 orders one unit of listing 1. -/
def stC1a : State := (OrderViewSet.create stC1 buyer20 (some [⟨1, 1⟩])).1

/-- Same state after the order is set to CONFIRMED. -/
def stC1b : State := stC1a.setOrderStatus 1 .CONFIRMED

/-- Listing with five units of stock for the overdraw scenario. -/
def cow5 : Animal := ⟨2, 10, "Cow".toList, 2000, false, 5⟩

/-- Database holding only the listing cow5. -/
def stC2 : State := ⟨[cow5], [], [], 1⟩

/-- Empty database with next order id 5. -/
def stC4 : State := ⟨[], [], [], 5⟩

/-- Buyer 7 owns listing 3: User.user_type is BUYER while Animal.farmer
    is 7 (nothing at the database level forbids this). -/
def selfBuyer : User := ⟨7, .BUYER⟩

/-- Listing whose farmer field equals the id of selfBuyer. -/
def ownAnimal : Animal := ⟨3, 7, "Goat".toList, 5000, false, 5⟩

/-- Database holding only the self-owned listing. -/
def stC5 : State := ⟨[ownAnimal], [], [], 1⟩

/-- Listing with one unit left, flag consistent. -/
def lamb1 : Animal := ⟨4, 10, "Lamb".toList, 3000, false, 1⟩

/-- Database holding only the listing lamb1. -/
def stC7 : State := ⟨[lamb1], [], [], 1⟩

/-- Listing whose name is 91 characters long. -/
def longNamed : Animal := ⟨1, 10, List.replicate 91 'a', 100, false, 1⟩

/-- Database with a confirmed one-line order on the long-named listing. -/
def stC8 : State := ⟨[longNamed], [⟨1, 20, .CONFIRMED⟩], [⟨1, 1, 1⟩], 2⟩

/- Theorems about the embedded operations.  First a few helper lemmas on
   row lookup after a row write, shared by the claim theorems. -/

/-- Helper: find? after a map that replaces exactly the rows matched by the
    same predicate, when the replacement still matches. -/
theorem find?_map_update {α : Type} (p : α → Bool) (f : α → α)
    (hf : ∀ x, p x = true → p (f x) = true) :
    ∀ (l : List α) (a : α), l.find? p = some a →
      (l.map (fun x => if p x then f x else x)).find? p = some (f a) := by
  intro l
  induction l with
  | nil => intro a h; simp at h
  | cons x xs ih =>
    intro a h
    by_cases hx : p x = true
    · rw [List.find?_cons_of_pos _ hx] at h
      injection h with h
      subst h
      simp only [List.map_cons, if_pos hx]
      exact List.find?_cons_of_pos _ (hf _ hx)
    · have hx' : ¬ p x := hx
      rw [List.find?_cons_of_neg _ hx'] at h
      simp only [List.map_cons, if_neg hx']
      rw [List.find?_cons_of_neg _ hx']
      exact ih a h

/-- Helper: the predicate returned by a successful Animal lookup. -/
theorem findAnimal_id (st : State) (aid : Nat) (a : Animal)
    (ha : st.findAnimal aid = some a) : a.id = aid := by
  have := List.find?_some ha
  simpa using this

/-- Helper: looking an Animal up after saving a row with the same id
    returns the saved row. -/
theorem findAnimal_saveAnimal (st : State) (aid : Nat) (a a2 : Animal)
    (ha : st.findAnimal aid = some a) (hid : a2.id = a.id) :
    (st.saveAnimal a2).findAnimal aid = some a2 := by
  have haid : a.id = aid := findAnimal_id st aid a ha
  unfold State.saveAnimal State.findAnimal
  rw [hid, haid]
  exact find?_map_update (fun (x : Animal) => x.id == aid) (fun _ => a2)
    (fun x _ => by simp [hid, haid]) st.animals a ha

/-- Helper: looking an Order up after a status write on the same id
    returns the order with the written status. -/
theorem findOrder_setOrderStatus (st : State) (oid : Nat) (o : Order)
    (s : OrderStatus) (ho : st.findOrder oid = some o) :
    (st.setOrderStatus oid s).findOrder oid = some { o with status := s } := by
  unfold State.setOrderStatus State.findOrder
  exact find?_map_update (fun (x : Order) => x.id == oid)
    (fun (x : Order) => { x with status := s })
    (fun x hx => by simpa using hx) st.orders o ho

/-- Helper: the callback stock loop never touches the orders table. -/
theorem stockLoop_orders : ∀ (l : List OrderItem) (st : State),
    (MpesaCallbackView.stockLoop st l).orders = st.orders := by
  intro l
  induction l with
  | nil => intro st; rfl
  | cons oi rest ih =>
    intro st
    unfold MpesaCallbackView.stockLoop
    cases h : st.findAnimal oi.animal with
    | none => simp only [h]; exact ih st
    | some a =>
      simp only [h]
      by_cases hq : a.quantity ≥ oi.quantity
      · rw [if_pos hq]; exact ih _
      · rw [if_neg hq]; exact ih st

/-- C1: the payment callback decrements stock a second time for the same
    order line.  Buyer 20 orders one of the two units of listing 1, which
    leaves quantity 1 with a single committed order line of quantity 1;
    after the order is CONFIRMED, posting the callback drops the quantity
    to 0 instead of leaving it at 1 = 2 - 1 as the ledger invariant and
    the claim require. -/
theorem C1_callback_decrements_confirmed_order_again :
    (stC1b.findAnimal 1).map Animal.quantity = some 1 ∧
    (stC1b.findOrder 1).map Order.status = some OrderStatus.CONFIRMED ∧
    (stC1b.orderLines 1).map OrderItem.quantity = [1] ∧
    ((MpesaCallbackView.post stC1b (some 1)).1.findAnimal 1).map Animal.quantity
      = some 0 :=
  ⟨rfl, rfl, rfl, rfl⟩

/-- C2 counterexample: buyer 20 requests 6 units of listing 2 whose stock
    is 5; the request fails, but the error surfaced by the order creation
    endpoint is the generic could-not-create-order ValidationError of
    views.py line 117, which carries neither the listing name nor the
    requested or available amounts. -/
theorem C2_counterexample_error_is_generic :
    OrderViewSet.create stC2 buyer20 (some [⟨2, 6⟩])
      = (stC2, .error ApiError.genericOrderError) :=
  rfl

/-- C4 counterexample: an order creation request whose cart is the empty
    list does not fail; it persists an Order row (id 5, buyer 20, status
    PENDING) with no line items. -/
theorem C4_counterexample_empty_cart_creates_order :
    OrderViewSet.create stC4 buyer20 (some [])
      = (⟨[], [⟨5, 20, .PENDING⟩], [], 6⟩, .ok 5) :=
  rfl

/-- C5: buyer 7 owns listing 3, which OrderItem.clean rejects, yet the
    order creation endpoint never invokes clean: the purchase succeeds,
    the stock drops from 5 to 4, and the order line is persisted, instead
    of failing with Conflict and changing nothing. -/
theorem C5_self_purchase_succeeds_despite_clean :
    OrderItem.cleanRejects selfBuyer.id ownAnimal ∧
    (OrderViewSet.create stC5 selfBuyer (some [⟨3, 1⟩])).2 = .ok 1 ∧
    ((OrderViewSet.create stC5 selfBuyer (some [⟨3, 1⟩])).1.findAnimal 3).map
        Animal.quantity = some 4 ∧
    (OrderViewSet.create stC5 selfBuyer (some [⟨3, 1⟩])).1.orderItems
      = [⟨1, 3, 1⟩] :=
  ⟨rfl, rfl, rfl, rfl⟩

/-- C7 counterexample: the flag invariant holds on stC7, but after the
    seller edits the quantity of listing 4 down to 0 through
    AnimalSerializer (is_sold being read-only is left untouched), the
    state has quantity 0 with is_sold still false. -/
theorem C7_counterexample_seller_edit_breaks_flag :
    SoldOutInv stC7 ∧ ¬ SoldOutInv (AnimalSerializer.updateQuantity stC7 4 0) := by
  unfold SoldOutInv
  constructor
  · decide
  · decide

/-- C9: the payment callback endpoint answers {'status': 'ok'} with HTTP
    200 on every input; in particular an order_id matching no order, and a
    missing order_id, are swallowed without any state change or error. -/
theorem C9_callback_always_ok (st : State) (oid : Nat)
    (h : st.findOrder oid = none) :
    MpesaCallbackView.post st (some oid) = (st, okResponse) ∧
    MpesaCallbackView.post st none = (st, okResponse) ∧
    ∀ input : Option Nat, (MpesaCallbackView.post st input).2 = okResponse := by
  refine ⟨?_, rfl, ?_⟩
  · simp [MpesaCallbackView.post, h]
  · intro input
    rfl

/-- C9 witness: the callback on an empty database, for order_id 99 and for
    a missing order_id, returns ok and changes nothing. -/
theorem C9_callback_always_ok_witness :
    MpesaCallbackView.post stC4 (some 99) = (stC4, okResponse) ∧
    MpesaCallbackView.post stC4 none = (stC4, okResponse) ∧
    ∀ input : Option Nat, (MpesaCallbackView.post stC4 input).2 = okResponse :=
  C9_callback_always_ok stC4 99 rfl

/-- C4 amended: a request missing the items field fails validation with no
    persisted Order, but a request whose cart is the empty list is accepted:
    it persists an Order with no line items, touching no listing and taking
    no listing lock. -/
theorem C4_empty_cart_is_accepted (st : State) (u : User)
    (hu : u.user_type = UserType.BUYER) :
    OrderViewSet.create st u (some [])
      = ({ st with orders := st.orders ++ [⟨st.nextOrderId, u.id, .PENDING⟩],
                   nextOrderId := st.nextOrderId + 1 }, .ok st.nextOrderId) ∧
    OrderViewSet.create st u none = (st, .error .fieldRequired) := by
  obtain ⟨uid, uty⟩ := u
  cases hu
  exact ⟨rfl, rfl⟩

/-- C4 witness: on the concrete empty database, the empty cart persists
    order 5 for buyer 20 and the missing items field is rejected. -/
theorem C4_empty_cart_is_accepted_witness :
    OrderViewSet.create stC4 buyer20 (some [])
      = ({ stC4 with orders := stC4.orders ++ [⟨stC4.nextOrderId, buyer20.id, .PENDING⟩],
                     nextOrderId := stC4.nextOrderId + 1 }, .ok stC4.nextOrderId) ∧
    OrderViewSet.create stC4 buyer20 none = (stC4, .error .fieldRequired) :=
  C4_empty_cart_is_accepted stC4 buyer20 rfl

/-- Helper: the decrement step keeps the row id. -/
theorem decrementAnimal_id (a : Animal) (n : Nat) :
    (decrementAnimal a n).id = a.id := by
  simp only [decrementAnimal]
  split <;> rfl

/-- Helper: on a listing whose flag is clear, the decrement step yields the
    reduced quantity with the flag set exactly when the quantity hits 0. -/
theorem decrementAnimal_eq (a : Animal) (n : Nat) (hsold : a.is_sold = false) :
    decrementAnimal a n
      = { a with quantity := a.quantity - n,
                 is_sold := decide (a.quantity - n = 0) } := by
  simp only [decrementAnimal]
  by_cases h : a.quantity - n = 0
  · simp [h]
  · simp [h, hsold]

/-- C3: a valid single line cart (listing exists, flag clear, stock
    positive, request within stock, buyer distinct from the owner, fresh
    order ids) is accepted, and afterwards the listing holds its old
    quantity minus the request, with is_sold exactly when that difference
    is 0. -/
theorem C3_valid_single_line_cart
    (st : State) (u : User) (aid q : Nat) (a : Animal)
    (hu : u.user_type = UserType.BUYER)
    (ha : st.findAnimal aid = some a)
    (hsold : a.is_sold = false)
    (hq0 : a.quantity ≠ 0)
    (hqle : q ≤ a.quantity)
    (howner : u.id ≠ a.farmer)
    (hfresh : ∀ oi ∈ st.orderItems, oi.order < st.nextOrderId) :
    (OrderViewSet.create st u (some [⟨aid, q⟩])).2 = .ok st.nextOrderId ∧
    (OrderViewSet.create st u (some [⟨aid, q⟩])).1.findAnimal aid
      = some { a with quantity := a.quantity - q,
                      is_sold := decide (a.quantity - q = 0) } := by
  have ha1 : State.findAnimal
      { st with orders := st.orders ++ [⟨st.nextOrderId, u.id, .PENDING⟩],
                nextOrderId := st.nextOrderId + 1 } aid = some a := ha
  have hserLoop : OrderWriteSerializer.createLoop st.nextOrderId
      { st with orders := st.orders ++ [⟨st.nextOrderId, u.id, .PENDING⟩],
                nextOrderId := st.nextOrderId + 1 } [⟨aid, q⟩]
      = .ok { st with
                orders := st.orders ++ [⟨st.nextOrderId, u.id, .PENDING⟩],
                nextOrderId := st.nextOrderId + 1,
                orderItems := st.orderItems ++ [⟨st.nextOrderId, aid, q⟩] } := by
    simp only [OrderWriteSerializer.createLoop, ha1]
    rw [if_neg (by simp [hsold]; omega)]
    rw [if_neg (by omega)]
    rw [if_neg (by
      rintro ⟨oi, hoi, h1, h2⟩
      exact absurd h1 (Nat.ne_of_lt (hfresh oi hoi)))]
  have hser : OrderWriteSerializer.create st u.id [⟨aid, q⟩]
      = .ok ({ st with
                orders := st.orders ++ [⟨st.nextOrderId, u.id, .PENDING⟩],
                nextOrderId := st.nextOrderId + 1,
                orderItems := st.orderItems ++ [⟨st.nextOrderId, aid, q⟩] },
             st.nextOrderId) := by
    simp only [OrderWriteSerializer.create, hserLoop, Except.map]
  have haS : State.findAnimal
      { st with orders := st.orders ++ [⟨st.nextOrderId, u.id, .PENDING⟩],
                nextOrderId := st.nextOrderId + 1,
                orderItems := st.orderItems ++ [⟨st.nextOrderId, aid, q⟩] } aid
      = some a := ha
  have hview : OrderViewSet.performCreateLoop
      { st with orders := st.orders ++ [⟨st.nextOrderId, u.id, .PENDING⟩],
                nextOrderId := st.nextOrderId + 1,
                orderItems := st.orderItems ++ [⟨st.nextOrderId, aid, q⟩] } [⟨aid, q⟩]
      = .ok (State.saveAnimal
              { st with orders := st.orders ++ [⟨st.nextOrderId, u.id, .PENDING⟩],
                        nextOrderId := st.nextOrderId + 1,
                        orderItems := st.orderItems ++ [⟨st.nextOrderId, aid, q⟩] }
              (decrementAnimal a q)) := by
    simp only [OrderViewSet.performCreateLoop, haS]
    rw [if_neg (by omega)]
  have hval : validateItems st (some [⟨aid, q⟩]) = .ok [⟨aid, q⟩] := by
    simp [validateItems, List.find?, ha]
  have hfin : (OrderViewSet.create st u (some [⟨aid, q⟩]))
      = (State.saveAnimal
          { st with orders := st.orders ++ [⟨st.nextOrderId, u.id, .PENDING⟩],
                    nextOrderId := st.nextOrderId + 1,
                    orderItems := st.orderItems ++ [⟨st.nextOrderId, aid, q⟩] }
          (decrementAnimal a q), .ok st.nextOrderId) := by
    simp only [OrderViewSet.create, hval]
    rw [if_neg (by simp [hu])]
    simp only [bind, Except.bind, hser, hview, pure, Except.pure]
  rw [hfin]
  refine ⟨rfl, ?_⟩
  have hsave := findAnimal_saveAnimal
    { st with orders := st.orders ++ [⟨st.nextOrderId, u.id, .PENDING⟩],
              nextOrderId := st.nextOrderId + 1,
              orderItems := st.orderItems ++ [⟨st.nextOrderId, aid, q⟩] }
    aid a (decrementAnimal a q) haS (decrementAnimal_id a q)
  rw [hsave, decrementAnimal_eq a q hsold]

/-- C3 witness: buyer 20 orders 2 of the 5 units of listing 2; the request
    is accepted and the listing drops to quantity 3 with the flag clear. -/
theorem C3_valid_single_line_cart_witness :
    (OrderViewSet.create stC2 buyer20 (some [⟨2, 2⟩])).2 = .ok stC2.nextOrderId ∧
    (OrderViewSet.create stC2 buyer20 (some [⟨2, 2⟩])).1.findAnimal 2
      = some { cow5 with quantity := cow5.quantity - 2,
                         is_sold := decide (cow5.quantity - 2 = 0) } :=
  C3_valid_single_line_cart stC2 buyer20 2 2 cow5 rfl rfl rfl (by decide)
    (by decide) (by decide) (by decide)

/-- Helper: the flag invariant only reads the animals table. -/
theorem SoldOutInv_of_animals_eq {st st2 : State}
    (h : st2.animals = st.animals) (hinv : SoldOutInv st) : SoldOutInv st2 := by
  intro a ha2
  exact hinv a (h ▸ ha2)

/-- Helper: saving a row that itself satisfies the flag equation keeps the
    flag invariant. -/
theorem SoldOutInv.saveAnimal (st : State) (hinv : SoldOutInv st) (a2 : Animal)
    (h2 : a2.is_sold = decide (a2.quantity = 0)) :
    SoldOutInv (st.saveAnimal a2) := by
  intro b hb
  simp only [State.saveAnimal] at hb
  rw [List.mem_map] at hb
  obtain ⟨x, hx, hbx⟩ := hb
  by_cases hc : (x.id == a2.id) = true
  · rw [if_pos hc] at hbx
    rw [← hbx]
    exact h2
  · rw [if_neg hc] at hbx
    rw [← hbx]
    exact hinv x hx
/-- Helper: the decrement step keeps the flag equation of its row. -/
theorem decrementAnimal_flag (a : Animal) (n : Nat)
    (ha : a.is_sold = decide (a.quantity = 0)) :
    (decrementAnimal a n).is_sold = decide ((decrementAnimal a n).quantity = 0) := by
  simp only [decrementAnimal]
  by_cases h : a.quantity - n = 0
  · simp [h]
  · have hq : a.quantity ≠ 0 := by omega
    simp [h, ha, hq]

/-- Helper: the perform_create stock loop keeps the flag invariant when it
    succeeds. -/
theorem performCreateLoop_inv : ∀ (items : List ItemData) (st st2 : State),
    SoldOutInv st → OrderViewSet.performCreateLoop st items = .ok st2 →
    SoldOutInv st2 := by
  intro items
  induction items with
  | nil =>
    intro st st2 hinv h
    simp only [OrderViewSet.performCreateLoop] at h
    injection h with h
    exact h ▸ hinv
  | cons it rest ih =>
    intro st st2 hinv h
    simp only [OrderViewSet.performCreateLoop] at h
    cases hA : st.findAnimal it.animal with
    | none => simp only [hA] at h; exact Except.noConfusion h
    | some a =>
      simp only [hA] at h
      by_cases hq : a.quantity < it.quantity
      · rw [if_pos hq] at h; cases h
      · rw [if_neg hq] at h
        have hmem : a ∈ st.animals := List.mem_of_find?_eq_some hA
        exact ih _ st2
          (SoldOutInv.saveAnimal st hinv _ (decrementAnimal_flag a it.quantity (hinv a hmem))) h

/-- Helper: the callback stock loop keeps the flag invariant. -/
theorem stockLoop_inv : ∀ (l : List OrderItem) (st : State),
    SoldOutInv st → SoldOutInv (MpesaCallbackView.stockLoop st l) := by
  intro l
  induction l with
  | nil => intro st hinv; exact hinv
  | cons oi rest ih =>
    intro st hinv
    unfold MpesaCallbackView.stockLoop
    cases hA : st.findAnimal oi.animal with
    | none => simp only [hA]; exact ih st hinv
    | some a =>
      simp only [hA]
      by_cases hq : a.quantity ≥ oi.quantity
      · rw [if_pos hq]
        have hmem : a ∈ st.animals := List.mem_of_find?_eq_some hA
        exact ih _
          (SoldOutInv.saveAnimal st hinv _ (decrementAnimal_flag a oi.quantity (hinv a hmem)))
      · rw [if_neg hq]
        exact ih st hinv

/-- Helper: the serializer create loop never touches the animals table. -/
theorem createLoop_animals : ∀ (items : List ItemData) (oid : Nat) (st st2 : State),
    OrderWriteSerializer.createLoop oid st items = .ok st2 →
    st2.animals = st.animals := by
  intro items
  induction items with
  | nil =>
    intro oid st st2 h
    simp only [OrderWriteSerializer.createLoop] at h
    injection h with h
    rw [← h]
  | cons it rest ih =>
    intro oid st st2 h
    simp only [OrderWriteSerializer.createLoop] at h
    cases hA : st.findAnimal it.animal with
    | none => simp only [hA] at h; exact Except.noConfusion h
    | some a =>
      simp only [hA] at h
      by_cases h1 : a.is_sold ∨ a.quantity = 0
      · rw [if_pos h1] at h; cases h
      · rw [if_neg h1] at h
        by_cases h2 : it.quantity > a.quantity
        · rw [if_pos h2] at h; cases h
        · rw [if_neg h2] at h
          by_cases h3 : ∃ oi ∈ st.orderItems, oi.order = oid ∧ oi.animal = it.animal
          · rw [if_pos h3] at h; cases h
          · rw [if_neg h3] at h
            exact ih oid
              { st with orderItems := st.orderItems ++ [⟨oid, it.animal, it.quantity⟩] }
              st2 h

/-- C7 amended: order creation and the payment callback keep the flag
    invariant is_sold = (quantity = 0) whenever it held beforehand; the
    seller quantity edit through AnimalSerializer does not (see the
    counterexample). -/
theorem C7_order_paths_preserve_flag (st : State) (hinv : SoldOutInv st)
    (u : User) (items : Option (List ItemData)) (input : Option Nat) :
    SoldOutInv (OrderViewSet.create st u items).1 ∧
    SoldOutInv (MpesaCallbackView.post st input).1 := by
  constructor
  · unfold OrderViewSet.create
    cases hval : validateItems st items with
    | error e => simp only [hval]; exact hinv
    | ok itemsData =>
      simp only [hval]
      by_cases hu : u.user_type ≠ UserType.BUYER
      · rw [if_pos hu]; exact hinv
      · rw [if_neg hu]
        have key : ∀ (e : Except ApiError (State × Nat)),
            (∀ r, e = .ok r → SoldOutInv r.1) →
            SoldOutInv (match e with
              | .ok r => ((r.1, Except.ok r.2) : State × Except ApiError Nat)
              | .error _ => (st, Except.error ApiError.genericOrderError)).1 := by
          intro e he
          cases e with
          | ok r => exact he r rfl
          | error e2 => exact hinv
        apply key
        intro r hr
        cases hc : OrderWriteSerializer.create st u.id itemsData with
        | error e2 =>
          rw [hc] at hr
          simp only [bind, Except.bind] at hr
          exact Except.noConfusion hr
        | ok rc =>
          rw [hc] at hr
          simp only [bind, Except.bind] at hr
          cases hp : OrderViewSet.performCreateLoop rc.1 itemsData with
          | error e2 =>
            rw [hp] at hr
            simp only [bind, Except.bind] at hr
            exact Except.noConfusion hr
          | ok st4 =>
            rw [hp] at hr
            simp only [bind, Except.bind, pure, Except.pure] at hr
            injection hr with hr
            rw [← hr]
            have hanim : rc.1.animals = st.animals := by
              unfold OrderWriteSerializer.create at hc
              cases hcl : OrderWriteSerializer.createLoop st.nextOrderId
                  { st with orders := st.orders ++ [⟨st.nextOrderId, u.id, .PENDING⟩],
                            nextOrderId := st.nextOrderId + 1 } itemsData with
              | error e3 =>
                rw [hcl] at hc
                simp only [Except.map] at hc
                exact Except.noConfusion hc
              | ok st3 =>
                rw [hcl] at hc
                simp only [Except.map] at hc
                injection hc with hc
                rw [← hc]
                exact createLoop_animals itemsData st.nextOrderId
                  { st with orders := st.orders ++ [⟨st.nextOrderId, u.id, .PENDING⟩],
                            nextOrderId := st.nextOrderId + 1 } st3 hcl
            exact performCreateLoop_inv itemsData rc.1 st4
              (SoldOutInv_of_animals_eq hanim hinv) hp
  · unfold MpesaCallbackView.post
    cases input with
    | none => exact hinv
    | some oid =>
      cases ho : st.findOrder oid with
      | none => simp only [ho]; exact hinv
      | some o =>
        simp only [ho]
        by_cases hs : o.status = OrderStatus.CONFIRMED
        · rw [if_pos hs]
          exact stockLoop_inv _ _ (SoldOutInv_of_animals_eq rfl hinv)
        · rw [if_neg hs]; exact hinv

/-- C7 witness: on stC2 the flag invariant holds, and it still holds after
    an order creation and after a callback delivery. -/
theorem C7_order_paths_preserve_flag_witness :
    SoldOutInv (OrderViewSet.create stC2 buyer20 (some [⟨2, 2⟩])).1 ∧
    SoldOutInv (MpesaCallbackView.post stC2 (some 1)).1 :=
  C7_order_paths_preserve_flag stC2 (by unfold SoldOutInv; decide) buyer20
    (some [⟨2, 2⟩]) (some 1)

/-- Helper: the exact Decimal total equals the cents total divided by 100. -/
theorem amountRat_eq_totalCents (st : State) : ∀ l : List OrderItem,
    ((l.map (fun oi => ((st.lineCents oi : ℚ) / 100) * (oi.quantity : ℚ))).sum)
      = (((l.map (fun oi => st.lineCents oi * oi.quantity)).sum : ℕ) : ℚ) / 100 := by
  intro l
  induction l with
  | nil => simp
  | cons oi rest ih =>
    simp only [List.map_cons, List.sum_cons, ih]
    push_cast
    ring

/-- C10: for an order with at least one line item, the amount handed to
    initiate_stk_push is the truncation of the exact Decimal total: the
    total number of cents divided by 100 with the fractional cents
    discarded. -/
theorem C10_amount_is_truncated_total (st : State) (oid : Nat)
    (h : st.orderLines oid ≠ []) :
    MakePaymentView.amount st oid = st.totalCents oid / 100 := by
  unfold MakePaymentView.amount MakePaymentView.amountRat State.totalCents
  rw [amountRat_eq_totalCents]
  rw [show ((100 : ℚ)) = ((100 : ℕ) : ℚ) by norm_num]
  rw [Nat.floor_div_nat]
  rw [Nat.floor_natCast]

/-- C10 witness: the single line order of stC8 has 100 cents at quantity 1,
    so the adapter amount is 1 = 100 / 100. -/
theorem C10_amount_is_truncated_total_witness :
    MakePaymentView.amount stC8 1 = stC8.totalCents 1 / 100 :=
  C10_amount_is_truncated_total stC8 1 (by decide)

/-- C2 amended: requesting one unit above the available quantity q of an
    in-stock listing fails and the whole transaction rolls back, leaving
    the state untouched; for q at least 1 the serializer raises the error
    carrying the listing name, the requested amount and the available
    amount, but the endpoint replaces it with the generic
    could-not-create-order ValidationError of views.py line 117, so the
    caller never sees those fields. -/
theorem C2_overdraw_generic_error_and_rollback
    (st : State) (u : User) (aid : Nat) (a : Animal)
    (hu : u.user_type = UserType.BUYER)
    (ha : st.findAnimal aid = some a)
    (hsold : a.is_sold = false)
    (hq : 1 ≤ a.quantity) :
    OrderWriteSerializer.create st u.id [⟨aid, a.quantity + 1⟩]
        = .error (.notEnoughStock a.name (a.quantity + 1) a.quantity) ∧
    OrderViewSet.create st u (some [⟨aid, a.quantity + 1⟩])
        = (st, .error ApiError.genericOrderError) := by
  have ha1 : State.findAnimal
      { st with orders := st.orders ++ [⟨st.nextOrderId, u.id, .PENDING⟩],
                nextOrderId := st.nextOrderId + 1 } aid = some a := ha
  have hser : OrderWriteSerializer.create st u.id [⟨aid, a.quantity + 1⟩]
      = .error (.notEnoughStock a.name (a.quantity + 1) a.quantity) := by
    unfold OrderWriteSerializer.create
    simp only [OrderWriteSerializer.createLoop, ha1]
    rw [if_neg (by simp [hsold]; omega)]
    rw [if_pos (by omega)]
    rfl
  refine ⟨hser, ?_⟩
  have hval : validateItems st (some [⟨aid, a.quantity + 1⟩])
      = .ok [⟨aid, a.quantity + 1⟩] := by
    simp [validateItems, List.find?, ha]
  simp only [OrderViewSet.create, hval]
  rw [if_neg (by simp [hu])]
  simp only [bind, Except.bind, hser]

/-- C2 witness: buyer 20 requesting 6 of the 5 available units of listing 2
    exercises both halves of the amended statement. -/
theorem C2_overdraw_generic_error_and_rollback_witness :
    OrderWriteSerializer.create stC2 buyer20.id [⟨2, cow5.quantity + 1⟩]
        = .error (.notEnoughStock cow5.name (cow5.quantity + 1) cow5.quantity) ∧
    OrderViewSet.create stC2 buyer20 (some [⟨2, cow5.quantity + 1⟩])
        = (stC2, .error ApiError.genericOrderError) :=
  C2_overdraw_generic_error_and_rollback stC2 buyer20 2 cow5 rfl rfl rfl
    (by decide)

/-- Helper: a callback naming an order whose status is not CONFIRMED is a
    no-op that still answers ok. -/
theorem MpesaCallbackView.post_noop (st : State) (oid : Nat) (o : Order)
    (ho : st.findOrder oid = some o) (h : o.status ≠ OrderStatus.CONFIRMED) :
    MpesaCallbackView.post st (some oid) = (st, okResponse) := by
  simp only [MpesaCallbackView.post, ho]
  rw [if_neg h]

/-- C6: the callback is idempotent on order status: for an order not in
    CONFIRMED status it changes nothing at all, and for a CONFIRMED order
    it sets the status to PAID, after which delivering the same callback a
    second time changes nothing. -/
theorem C6_callback_idempotent (st : State) (oid : Nat) (o : Order)
    (ho : st.findOrder oid = some o) :
    (o.status ≠ OrderStatus.CONFIRMED →
      MpesaCallbackView.post st (some oid) = (st, okResponse)) ∧
    (o.status = OrderStatus.CONFIRMED →
      ((MpesaCallbackView.post st (some oid)).1.findOrder oid).map Order.status
          = some OrderStatus.PAID ∧
      MpesaCallbackView.post (MpesaCallbackView.post st (some oid)).1 (some oid)
          = ((MpesaCallbackView.post st (some oid)).1, okResponse)) := by
  constructor
  · intro h
    exact MpesaCallbackView.post_noop st oid o ho h
  · intro h
    have hpost : MpesaCallbackView.post st (some oid)
        = (MpesaCallbackView.stockLoop (st.setOrderStatus oid OrderStatus.PAID)
            ((st.setOrderStatus oid OrderStatus.PAID).orderLines oid), okResponse) := by
      simp only [MpesaCallbackView.post, ho]
      rw [if_pos h]
    have hfind : (MpesaCallbackView.stockLoop (st.setOrderStatus oid OrderStatus.PAID)
          ((st.setOrderStatus oid OrderStatus.PAID).orderLines oid)).findOrder oid
        = some { o with status := OrderStatus.PAID } := by
      unfold State.findOrder
      rw [stockLoop_orders]
      exact findOrder_setOrderStatus st oid o OrderStatus.PAID ho
    constructor
    · rw [hpost]
      simp [hfind]
    · rw [hpost]
      exact MpesaCallbackView.post_noop _ oid { o with status := OrderStatus.PAID }
        hfind (by simp)

/-- C6 witness: on stC8, whose order 1 is CONFIRMED, the callback sets the
    status to PAID and a second delivery returns ok changing nothing. -/
theorem C6_callback_idempotent_witness :
    ((MpesaCallbackView.post stC8 (some 1)).1.findOrder 1).map Order.status
        = some OrderStatus.PAID ∧
    MpesaCallbackView.post (MpesaCallbackView.post stC8 (some 1)).1 (some 1)
        = ((MpesaCallbackView.post stC8 (some 1)).1, okResponse) :=
  (C6_callback_idempotent stC8 1 ⟨1, 20, .CONFIRMED⟩ rfl).2 rfl

/-- C8 counterexample: listing 1 of stC8 has a 91 character name, so the
    joined description exceeds 90 characters and the code produces its
    first 90 characters plus a 3 character ellipsis marker: a 93 character
    transaction description, violating the claimed 90 character bound. -/
theorem C8_counterexample_descr_exceeds_limit :
    ¬ (MakePaymentView.transactionDesc stC8 1).length ≤ 90 := by
  decide

/-- C8 amended: a joined description of at most 90 characters is passed
    through unchanged; a longer one is cut to its first 90 characters with
    an ellipsis marker appended, making the transaction description exactly
    93 characters long, above the claimed 90 character bound. -/
theorem C8_description_truncation (st : State) (oid : Nat) :
    ((MakePaymentView.joinedDesc st oid).length ≤ 90 →
      MakePaymentView.transactionDesc st oid = MakePaymentView.joinedDesc st oid) ∧
    (90 < (MakePaymentView.joinedDesc st oid).length →
      MakePaymentView.transactionDesc st oid
        = (MakePaymentView.joinedDesc st oid).take 90 ++ "...".toList ∧
      (MakePaymentView.transactionDesc st oid).length = 93) := by
  constructor
  · intro h
    unfold MakePaymentView.transactionDesc MakePaymentView.truncateDesc
    rw [if_neg (by omega)]
  · intro h
    unfold MakePaymentView.transactionDesc MakePaymentView.truncateDesc
    rw [if_pos (by omega)]
    refine ⟨rfl, ?_⟩
    rw [List.length_append, List.length_take]
    have h3 : ("...".toList).length = 3 := rfl
    rw [h3]
    omega

/-- C8 witness: for the order on the 91 character listing name, the
    description is the 90 character cut plus the marker, 93 characters. -/
theorem C8_description_truncation_witness :
    MakePaymentView.transactionDesc stC8 1
      = (MakePaymentView.joinedDesc stC8 1).take 90 ++ "...".toList ∧
    (MakePaymentView.transactionDesc stC8 1).length = 93 :=
  (C8_description_truncation stC8 1).2 (by decide)

end Farmart
